import Mathlib

/-!
Verification development for the AI-Background-Preserver repository.

The embedding covers:
* the data-URL codec of src/services/geminiService.ts (fileUtils part):
  fileToInfo and dataUrlToInfo, with a faithful model of the JavaScript
  regular expression /^data:(.+);base64,(.*)$/ including its greedy
  backtracking semantics;
* the edit-service client processImageWithGemini of
  src/services/geminiService.ts, parameterised over the transport outcome;
* the single-image session state machine of src/App.tsx:
  resetStateForNewImage, processFile and handleProcessImage, with React
  state collapsed into an explicit AppState record and each asynchronous
  boundary (file read, service round trip) passed in as an Except value.
-/

namespace BackgroundPreserver

/-- The pair returned by dataUrlToInfo and stored as originalImageInfo in
src/App.tsx (interface ImageInfo, App.tsx lines 7-10). -/
structure ImageInfo where
  base64 : String
  mimeType : String
deriving DecidableEq, Repr

/-- The triple produced by fileToInfo / urlToInfo in
src/services/geminiService.ts (fileUtils part). -/
structure LoadedImage where
  base64 : String
  mimeType : String
  dataUrl : String
deriving DecidableEq, Repr

/-! ## The data-URL codec -/

/-- Line-terminator characters, which the JavaScript dot `.` (without the /s
flag) does not match: \n, \r, U+2028, U+2029. -/
def isLineTerm (c : Char) : Bool :=
  c = '\n' || c = '\r' || c = '\u2028' || c = '\u2029'

/-- The characters of the literal "data:" matched by the anchored start of
the regex in dataUrlToInfo. -/
def dataPrefixChars : List Char := ['d', 'a', 't', 'a', ':']

/-- The characters of the literal ";base64," in the middle of the regex in
dataUrlToInfo. -/
def sepChars : List Char := [';', 'b', 'a', 's', 'e', '6', '4', ',']

/-- Whether the regex /^data:(.+);base64,(.*)$/ can match with its first
group taking exactly the first i characters of t (the part after "data:"):
the group must be non-empty, both groups must be free of line terminators
(the dot does not cross them), and the literal ";base64," must sit between
them. -/
def validSplitAt (t : List Char) (i : Nat) : Bool :=
  decide (0 < i) &&
  (t.take i).all (fun c => !isLineTerm c) &&
  sepChars.isPrefixOf (t.drop i) &&
  ((t.drop i).drop 8).all (fun c => !isLineTerm c)

/-- Greedy backtracking of the JavaScript regex engine for (.+): try the
longest first group first and take the first split that matches. -/
def findSplitAux (t : List Char) : Nat → Option (List Char × List Char)
  | 0 => none
  | i + 1 =>
    if validSplitAt t (i + 1) then some (t.take (i + 1), (t.drop (i + 1)).drop 8)
    else findSplitAux t i

/-- The match of /(.+);base64,(.*)/ against t (the input with "data:"
already removed), returning the two capture groups. -/
def findSplit (t : List Char) : Option (List Char × List Char) :=
  findSplitAux t t.length

/-- The error message thrown by dataUrlToInfo
(src/services/geminiService.ts, fileUtils part, lines 125-134). -/
def invalidDataUrlMsg : String :=
  "Invalid data URL format. Expected \"data:<mime-type>;base64,<data>\"."

/-- dataUrlToInfo from src/services/geminiService.ts (fileUtils part):
match the data URL against /^data:(.+);base64,(.*)$/ and return the two
capture groups as {base64, mimeType}; throw (here: Except.error) when the
regex does not match. -/
def dataUrlToInfo (dataUrl : String) : Except String ImageInfo :=
  if dataPrefixChars.isPrefixOf dataUrl.data then
    match findSplit (dataUrl.data.drop 5) with
    | some (g1, g2) => .ok { base64 := String.mk g2, mimeType := String.mk g1 }
    | none => .error invalidDataUrlMsg
  else .error invalidDataUrlMsg

/-- The standard base64 alphabet used by the browser's btoa / FileReader
data-URL encoding. -/
def base64Chars : List Char :=
  ['A', 'B', 'C', 'D', 'E', 'F', 'G', 'H', 'I', 'J', 'K', 'L', 'M',
   'N', 'O', 'P', 'Q', 'R', 'S', 'T', 'U', 'V', 'W', 'X', 'Y', 'Z',
   'a', 'b', 'c', 'd', 'e', 'f', 'g', 'h', 'i', 'j', 'k', 'l', 'm',
   'n', 'o', 'p', 'q', 'r', 's', 't', 'u', 'v', 'w', 'x', 'y', 'z',
   '0', '1', '2', '3', '4', '5', '6', '7', '8', '9', '+', '/']

/-- The base64 digit for a 6-bit value. -/
def b64Char (n : Nat) : Char := base64Chars.getD n 'A'

/-- Modelled from the spec: standard base64 encoding of a byte sequence,
as performed inside the browser's FileReader.readAsDataURL (platform code,
not part of src/); section 6 of the specification fixes the data-URL form
data:<mimeType>;base64,<base64Payload>. -/
def base64Encode : List Nat → List Char
  | [] => []
  | [a] =>
    [b64Char (a % 256 / 4), b64Char (a % 4 * 16), '=', '=']
  | [a, b] =>
    [b64Char (a % 256 / 4), b64Char (a % 4 * 16 + b % 256 / 16),
     b64Char (b % 16 * 4), '=']
  | a :: b :: c :: rest =>
    [b64Char (a % 256 / 4), b64Char (a % 4 * 16 + b % 256 / 16),
     b64Char (b % 16 * 4 + c % 256 / 64), b64Char (c % 64)] ++ base64Encode rest

/-- A file as handed to fileToInfo: its declared MIME type (file.type) and
its bytes. -/
structure FileModel where
  type : String
  bytes : List Nat
deriving DecidableEq, Repr

/-- Modelled from the spec: the data URL produced by
FileReader.readAsDataURL for a file (platform code, not part of src/),
per the data-URL grammar of section 6 of the specification. -/
def readAsDataURL (file : FileModel) : String :=
  "data:" ++ file.type ++ ";base64," ++ String.mk (base64Encode file.bytes)

/-- JavaScript String.prototype.split(',') on a character list: split at
every comma, keeping empty pieces. -/
def splitOnComma : List Char → List (List Char)
  | [] => [[]]
  | c :: rest =>
    let r := splitOnComma rest
    if c = ',' then [] :: r
    else
      match r with
      | [] => [[c]]
      | h :: t => (c :: h) :: t

/-- fileToInfo from src/services/geminiService.ts (fileUtils part): reject
a file whose declared type does not start with "image/" before any read;
otherwise read it as a data URL (FileReader), reject an empty result, and
return {base64 := dataUrl.split(char44)[1], mimeType := file.type, dataUrl}.
The read itself is the platform's; read failures (reader.onerror) are
modelled at the caller (processFile) as an Except parameter. -/
def fileToInfo (file : FileModel) : Except String LoadedImage :=
  if "image/".data.isPrefixOf file.type.data then
    if (readAsDataURL file).data = [] then
      .error "Failed to read the image file data."
    else
      .ok { base64 := String.mk ((splitOnComma (readAsDataURL file).data).getD 1 [])
            mimeType := file.type
            dataUrl := readAsDataURL file }
  else .error "Invalid file type. Please upload an image."

/-! ## The edit-service client (processImageWithGemini) -/

/-- The inlineData field of a response part. -/
structure InlineData where
  data : String
deriving DecidableEq, Repr

/-- One part of a response candidate's content; inlineData is absent on
text-only parts. -/
structure ResponsePart where
  inlineData : Option InlineData
deriving DecidableEq, Repr

/-- The content of a response candidate. -/
structure Content where
  parts : Option (List ResponsePart)
deriving DecidableEq, Repr

/-- One candidate of the generate-content response. -/
structure Candidate where
  content : Option Content
  finishReason : Option String
deriving DecidableEq, Repr

/-- The generate-content response shape consumed by
processImageWithGemini. -/
structure GenResponse where
  candidates : Option (List Candidate)
deriving DecidableEq, Repr

/-- response.candidates?.[0]?.content?.parts?.find(part => part.inlineData)
(src/services/geminiService.ts line 39). -/
def findImagePart (r : GenResponse) : Option ResponsePart :=
  ((((r.candidates.bind fun cs => cs.head?).bind fun c => c.content).bind
    fun ct => ct.parts).bind fun ps => ps.find? fun part => part.inlineData.isSome)

/-- JavaScript String.prototype.includes: does pat occur as a contiguous
substring of s. -/
def strIncludes (s pat : String) : Bool :=
  (List.range (s.data.length + 1)).any fun i => pat.data.isPrefixOf (s.data.drop i)

/-- The else branch of processImageWithGemini at lines 43-49: inspect the
first candidate's finishReason; when it is truthy (present and non-empty)
and not STOP, throw the safety-reason error, otherwise throw the no-image
error. -/
def geminiNoImage (r : GenResponse) : Except String String :=
  match (r.candidates.bind fun cs => cs.head?).bind fun c => c.finishReason with
  | some reason =>
    if reason ≠ "" && reason ≠ "STOP" then
      .error ("Image generation failed due to safety reasons: " ++ reason)
    else .error "No image data found in the Gemini API response."
  | none => .error "No image data found in the Gemini API response."

/-- The body of the try block of processImageWithGemini
(src/services/geminiService.ts lines 38-50), given the already-received
response: return the first inline-image part's data, otherwise fall to the
finish-reason inspection. -/
def geminiTryBody (r : GenResponse) : Except String String :=
  match findImagePart r with
  | some part =>
    match part.inlineData with
    | some d => .ok d.data
    | none => geminiNoImage r
  | none => geminiNoImage r

/-- processImageWithGemini from src/services/geminiService.ts lines 12-58.
The network round trip is passed in as transport: a transport-level
exception message, or the parsed response. Every error raised inside the
try block — including the function's own safety-reason and no-image throws
— is caught by the catch at lines 51-57 and replaced by one of the two
generic messages. -/
def processImageWithGemini (base64Image mimeType prompt : String)
    (transport : Except String GenResponse) : Except String String :=
  let attempt : Except String String :=
    match transport with
    | .error msg => .error msg
    | .ok r => geminiTryBody r
  match attempt with
  | .ok d => .ok d
  | .error msg =>
    if strIncludes msg "API_KEY" then
      .error "Failed to process image. Please ensure your API key is valid."
    else .error "Failed to process image with the AI model."

/-! ## The single-image session state machine (src/App.tsx) -/

/-- JavaScript String.prototype.trim on both ends, over the character
list (whitespace per Char.isWhitespace). -/
def jsTrim (s : String) : String :=
  String.mk (((s.data.dropWhile Char.isWhitespace).reverse.dropWhile
    Char.isWhitespace).reverse)

/-- The React state of the single-image App component (src/App.tsx lines
13-23), restricted to the fields the session state machine reads or
writes; inputMode, imageUrlInput and isDragging are input-widget state
untouched by the modelled transitions. -/
structure AppState where
  originalImageInfo : Option ImageInfo
  displayOriginalImageUrl : Option String
  latestProcessedImageUrl : Option String
  prompt : String
  isLoading : Bool
  loadingMessage : String
  error : Option String
  isFirstRequest : Bool
deriving DecidableEq, Repr

/-- One invocation of the edit-service client: the arguments App.tsx
passes to processImageWithGemini at line 140. -/
structure ServiceCall where
  base64Image : String
  mimeType : String
  prompt : String
deriving DecidableEq, Repr

/-- resetStateForNewImage from src/App.tsx lines 25-33. -/
def resetStateForNewImage (s : AppState) : AppState :=
  { s with
    isLoading := true
    loadingMessage := "Loading image..."
    error := none
    displayOriginalImageUrl := none
    latestProcessedImageUrl := none
    originalImageInfo := none
    prompt := "" }

/-- processFile from src/App.tsx lines 35-50: reset the record, then await
fileToInfo (its outcome passed in as readResult); on success install the
new original and set isFirstRequest, on failure set the error; the finally
block clears isLoading and loadingMessage either way. -/
def processFile (s : AppState) (readResult : Except String LoadedImage) : AppState :=
  let s1 := resetStateForNewImage s
  match readResult with
  | .ok r =>
    { s1 with
      originalImageInfo := some { base64 := r.base64, mimeType := r.mimeType }
      displayOriginalImageUrl := some r.dataUrl
      isFirstRequest := true
      isLoading := false
      loadingMessage := "" }
  | .error msg =>
    { s1 with error := some msg, isLoading := false, loadingMessage := "" }

/-- The fixed first-edit instruction of src/App.tsx line 124. -/
def cleanInstruction : String :=
  "Identify and meticulously remove all people and text. Intelligently and realistically reconstruct the background. The output image should look as if the people and text were never there. Provide a clean, preserved background suitable for graphic design and digital creations."

/-- The tail of handleProcessImage after the request arguments are chosen
(src/App.tsx lines 140-151): await processImageWithGemini (outcome passed
in as serviceResult); on success store the result as a data URL with MIME
type image/png and clear isFirstRequest, on failure set the error; the
finally block clears isLoading and loadingMessage. The call actually made
is returned alongside the state. -/
def finishCall (s1 : AppState) (call : ServiceCall)
    (serviceResult : Except String String) : AppState × Option ServiceCall :=
  match serviceResult with
  | .ok resultBase64 =>
    ({ s1 with
       latestProcessedImageUrl := some ("data:image/png;base64," ++ resultBase64)
       isFirstRequest := false
       isLoading := false
       loadingMessage := "" }, some call)
  | .error msg =>
    ({ s1 with error := some msg, isLoading := false, loadingMessage := "" },
     some call)

/-- handleProcessImage from src/App.tsx lines 106-152. With no original
loaded it sets the error and returns at once. Otherwise it enters the
loading state, clears the error, and picks the request arguments: on the
first request the originalImageInfo payload with the fixed instruction;
on a refine it requires latestProcessedImageUrl (else the internal throw is
caught and recorded), rejects a blank prompt synchronously, and otherwise
decodes latestProcessedImageUrl with dataUrlToInfo (a decode throw is
likewise caught and recorded) and uses the user's prompt. -/
def handleProcessImage (s : AppState)
    (serviceResult : Except String String) : AppState × Option ServiceCall :=
  match s.originalImageInfo with
  | none => ({ s with error := some "Please load an image first." }, none)
  | some info =>
    let s1 :=
      { s with
        isLoading := true
        loadingMessage :=
          if s.isFirstRequest then "Cleaning background..." else "Applying refinement..."
        error := none }
    if s.isFirstRequest then
      finishCall s1
        { base64Image := info.base64, mimeType := info.mimeType,
          prompt := cleanInstruction } serviceResult
    else
      match s.latestProcessedImageUrl with
      | none =>
        ({ s1 with
           error := some "Cannot apply refinement, the processed image is missing."
           isLoading := false
           loadingMessage := "" }, none)
      | some url =>
        if jsTrim s.prompt = "" then
          ({ s1 with
             error := some "Please provide a refinement instruction."
             isLoading := false
             loadingMessage := "" }, none)
        else
          match dataUrlToInfo url with
          | .error e =>
            ({ s1 with error := some e, isLoading := false, loadingMessage := "" },
             none)
          | .ok pInfo =>
            finishCall s1
              { base64Image := pInfo.base64, mimeType := pInfo.mimeType,
                prompt := s.prompt } serviceResult

/-- A user click on the Clean Background / Apply Refinement button of
src/App.tsx lines 234-241: the button is disabled while isLoading is true
or no original is loaded, so a click then fires nothing; otherwise it runs
handleProcessImage. -/
def processButtonClick (s : AppState)
    (serviceResult : Except String String) : AppState × Option ServiceCall :=
  if s.isLoading || s.originalImageInfo.isNone then (s, none)
  else handleProcessImage s serviceResult

/-! ## Codec lemmas -/

/-- A character that may appear in a base64 payload: it is not a semicolon,
not a comma, and not a line terminator. -/
def payloadChar (c : Char) : Prop :=
  c ≠ ';' ∧ c ≠ ',' ∧ isLineTerm c = false

instance (c : Char) : Decidable (payloadChar c) := by
  unfold payloadChar
  infer_instance

/-- A list that ";base64," is a prefix of starts with a semicolon. -/
theorem head_of_sep_isPrefixOf (l : List Char)
    (h : sepChars.isPrefixOf l = true) : l.head? = some ';' := by
  rw [ List.isPrefixOf_iff_prefix] at h
  obtain ⟨t, ht⟩ := h
  rw [← ht]
  rfl

/-- The head of a drop is the corresponding element. -/
theorem head?_drop_eq_get? {α : Type} (l : List α) (n : Nat) :
    (l.drop n).head? = l.get? n := by
  induction l generalizing n with
  | nil => cases n <;> rfl
  | cons a l ih =>
    cases n with
    | zero => rfl
    | succ n => exact ih n

/-- Greedy matching: if position a is a valid split and every later
position is not, the backtracking search starting at any bound n ≥ a finds
exactly the split at a. -/
theorem findSplitAux_eq_of (t : List Char) (a : Nat)
    (ha : validSplitAt t a = true)
    (hhigh : ∀ j, a < j → validSplitAt t j = false) :
    ∀ n, a ≤ n → findSplitAux t n = some (t.take a, (t.drop a).drop 8) := by
  intro n
  induction n with
  | zero =>
    intro h
    have h0 : a = 0 := Nat.le_zero.mp h
    rw [h0] at ha
    simp [validSplitAt] at ha
  | succ n ih =>
    intro h
    rcases Nat.lt_or_ge a (n + 1) with hlt | hge
    · have hfalse : validSplitAt t (n + 1) = false := hhigh (n + 1) hlt
      simp only [findSplitAux, hfalse, Bool.false_eq_true, if_false]
      exact ih (Nat.lt_succ_iff.mp hlt)
    · have heq : a = n + 1 := Nat.le_antisymm h hge
      subst heq
      simp only [findSplitAux, ha, if_true]

/-- Soundness of the backtracking search: a successful match comes from a
valid split position. -/
theorem findSplitAux_sound (t : List Char) (n : Nat) (g1 g2 : List Char)
    (h : findSplitAux t n = some (g1, g2)) :
    ∃ i, 0 < i ∧ validSplitAt t i = true ∧
      g1 = t.take i ∧ g2 = (t.drop i).drop 8 := by
  induction n with
  | zero => simp [findSplitAux] at h
  | succ n ih =>
    by_cases hv : validSplitAt t (n + 1) = true
    · simp only [findSplitAux, hv, if_true, Option.some.injEq, Prod.mk.injEq] at h
      exact ⟨n + 1, Nat.succ_pos n, hv, h.1.symm, h.2.symm⟩
    · simp only [findSplitAux, hv, if_false] at h
      exact ih h

/-- The concatenation mime ++ ";base64," ++ payload is a valid split at the
length of the mime part, when the mime part is non-empty and
line-terminator-free and the payload consists of payload characters. -/
theorem validSplitAt_append (m p : List Char) (hm : m ≠ [])
    (hmL : ∀ c ∈ m, isLineTerm c = false)
    (hp : ∀ c ∈ p, payloadChar c) :
    validSplitAt (m ++ sepChars ++ p) m.length = true := by
  have htake : (m ++ sepChars ++ p).take m.length = m := by
    rw [List.append_assoc]
    exact List.take_left m _
  have hdrop : (m ++ sepChars ++ p).drop m.length = sepChars ++ p := by
    rw [List.append_assoc]
    exact List.drop_left m _
  have hdrop8 : (sepChars ++ p).drop 8 = p := List.drop_left sepChars p
  unfold validSplitAt
  rw [htake, hdrop, hdrop8]
  simp only [Bool.and_eq_true, decide_eq_true_eq, List.all_eq_true,
    Bool.not_eq_true']
  refine ⟨⟨⟨List.length_pos.mpr hm, hmL⟩, ?_⟩, fun c hc => (hp c hc).2.2⟩
  rw [ List.isPrefixOf_iff_prefix]
  exact List.prefix_append sepChars p

/-- No position strictly after the mime part is a valid split: the
character there is never a semicolon, so ";base64," cannot start there. -/
theorem validSplitAt_high (m p : List Char)
    (hp : ∀ c ∈ p, payloadChar c) :
    ∀ j, m.length < j → validSplitAt (m ++ sepChars ++ p) j = false := by
  intro j hj
  cases hpre : sepChars.isPrefixOf ((m ++ sepChars ++ p).drop j) with
  | false =>
    unfold validSplitAt
    rw [hpre]
    simp
  | true =>
    exfalso
    have hh := head_of_sep_isPrefixOf _ hpre
    obtain ⟨k, hk⟩ := Nat.exists_eq_add_of_lt hj
    rw [hk, List.append_assoc, Nat.add_assoc, List.drop_append] at hh
    have hsep : sepChars ++ p =
        ';' :: (['b', 'a', 's', 'e', '6', '4', ','] ++ p) := rfl
    rw [hsep, List.drop_succ_cons, head?_drop_eq_get?] at hh
    have hmem : ';' ∈ ['b', 'a', 's', 'e', '6', '4', ','] ++ p :=
      List.get?_mem hh
    rcases List.mem_append.mp hmem with hin | hin
    · simp at hin
    · exact (hp ';' hin).1 rfl

/-- The match of the regex body against mime ++ ";base64," ++ payload
recovers exactly the two parts. -/
theorem findSplit_append (m p : List Char) (hm : m ≠ [])
    (hmL : ∀ c ∈ m, isLineTerm c = false)
    (hp : ∀ c ∈ p, payloadChar c) :
    findSplit (m ++ sepChars ++ p) = some (m, p) := by
  have ha := validSplitAt_append m p hm hmL hp
  have hhigh := validSplitAt_high m p hp
  have hlen : m.length ≤ (m ++ sepChars ++ p).length := by
    simp [List.length_append]
  have hfind := findSplitAux_eq_of _ _ ha hhigh _ hlen
  have htake : (m ++ sepChars ++ p).take m.length = m := by
    rw [List.append_assoc]
    exact List.take_left m _
  have hdrop : (m ++ sepChars ++ p).drop m.length = sepChars ++ p := by
    rw [List.append_assoc]
    exact List.drop_left m _
  have hdrop8 : (sepChars ++ p).drop 8 = p := List.drop_left sepChars p
  unfold findSplit
  rw [hfind]
  rw [htake]
  rw [hdrop]
  rw [hdrop8]

/-- Decoding a data URL assembled from a non-empty, line-terminator-free
MIME type and a payload of payload characters recovers the pair exactly. -/
theorem dataUrlToInfo_append (m p : String) (hm : m.data ≠ [])
    (hmL : ∀ c ∈ m.data, isLineTerm c = false)
    (hp : ∀ c ∈ p.data, payloadChar c) :
    dataUrlToInfo ("data:" ++ m ++ ";base64," ++ p) =
      .ok { base64 := p, mimeType := m } := by
  have hdata : ("data:" ++ m ++ ";base64," ++ p).data
      = dataPrefixChars ++ (m.data ++ sepChars ++ p.data) := by
    simp [String.data_append, dataPrefixChars, sepChars]
  have hpre : dataPrefixChars.isPrefixOf
      (("data:" ++ m ++ ";base64," ++ p).data) = true := by
    rw [hdata, List.isPrefixOf_iff_prefix]
    exact List.prefix_append _ _
  have hdrop : (("data:" ++ m ++ ";base64," ++ p).data).drop 5
      = m.data ++ sepChars ++ p.data := by
    rw [hdata]
    exact List.drop_left dataPrefixChars _
  unfold dataUrlToInfo
  rw [hpre]
  rw [if_pos rfl]
  rw [hdrop, findSplit_append m.data p.data hm hmL hp]

/-- Every character of the base64 alphabet is a payload character. -/
theorem base64Chars_payload : ∀ c ∈ base64Chars, payloadChar c := by decide

/-- Every base64 digit is a payload character. -/
theorem b64Char_payload (n : Nat) : payloadChar (b64Char n) := by
  unfold b64Char List.getD
  cases hg : base64Chars.get? n with
  | some c =>
    simp only [Option.getD_some]
    exact base64Chars_payload c (List.get?_mem hg)
  | none =>
    simp only [Option.getD_none]
    decide

/-- The padding character is a payload character. -/
theorem eq_char_payload : payloadChar '=' := by decide

/-- Every character produced by the base64 encoder is a payload
character. -/
theorem base64Encode_payload : (l : List Nat) → ∀ c ∈ base64Encode l, payloadChar c
  | [] => by simp [base64Encode]
  | [a] => by
    simp only [base64Encode, List.mem_cons, List.not_mem_nil, or_false]
    intro c hc
    rcases hc with h | h | h | h <;> subst h
    · exact b64Char_payload _
    · exact b64Char_payload _
    · exact eq_char_payload
    · exact eq_char_payload
  | [a, b] => by
    simp only [base64Encode, List.mem_cons, List.not_mem_nil, or_false]
    intro c hc
    rcases hc with h | h | h | h <;> subst h
    · exact b64Char_payload _
    · exact b64Char_payload _
    · exact b64Char_payload _
    · exact eq_char_payload
  | a :: b :: c :: rest => by
    intro x hx
    rw [base64Encode] at hx
    rcases List.mem_append.mp hx with h | h
    · simp only [List.mem_cons, List.not_mem_nil, or_false] at h
      rcases h with h | h | h | h <;> subst h <;> exact b64Char_payload _
    · exact base64Encode_payload rest x h

/-- Splitting at commas after a comma-free block: the block becomes the
first piece. -/
theorem splitOnComma_append (a b : List Char) (ha : ∀ c ∈ a, c ≠ ',') :
    splitOnComma (a ++ ',' :: b) = a :: splitOnComma b := by
  induction a with
  | nil => simp [splitOnComma]
  | cons c a ih =>
    have hc : c ≠ ',' := ha c (List.mem_cons_self c a)
    have ih' := ih fun x hx => ha x (List.mem_cons_of_mem c hx)
    simp only [List.cons_append, splitOnComma, List.append_eq, ih', if_neg hc]

/-- A comma-free list is a single piece. -/
theorem splitOnComma_of_no_comma (b : List Char) (hb : ∀ c ∈ b, c ≠ ',') :
    splitOnComma b = [b] := by
  induction b with
  | nil => rfl
  | cons c b ih =>
    have hc : c ≠ ',' := hb c (List.mem_cons_self c b)
    have ih' := ih fun x hx => hb x (List.mem_cons_of_mem c hx)
    simp only [splitOnComma, ih', if_neg hc]

/-- The data of the data URL assembled by readAsDataURL. -/
theorem readAsDataURL_data (file : FileModel) :
    (readAsDataURL file).data =
      dataPrefixChars ++ (file.type.data ++ sepChars ++ base64Encode file.bytes) := by
  unfold readAsDataURL
  simp [String.data_append, dataPrefixChars, sepChars]

/-- The characters before the single separator comma of a data URL built
from a comma-free MIME type are comma-free. -/
theorem dataUrl_head_no_comma (file : FileModel)
    (hm : ∀ c ∈ file.type.data, c ≠ ',') :
    ∀ c ∈ dataPrefixChars ++
      (file.type.data ++ [';', 'b', 'a', 's', 'e', '6', '4']), c ≠ ',' := by
  intro c hc
  have hfix1 : ∀ c ∈ dataPrefixChars, c ≠ ',' := by decide
  have hfix2 : ∀ c ∈ [';', 'b', 'a', 's', 'e', '6', '4'], c ≠ ',' := by decide
  rcases List.mem_append.mp hc with h | h
  · exact hfix1 c h
  · rcases List.mem_append.mp h with h | h
    · exact hm c h
    · exact hfix2 c h

end BackgroundPreserver

namespace BackgroundPreserver

/-- Two strings with the same character data are equal. -/
theorem string_eq_of_data_eq (s t : String) (h : s.data = t.data) : s = t := by
  cases s
  cases t
  exact congrArg String.mk h

/-- C3 (amended): a successful decode happens only for a string of the
exact form data:<mime>;base64,<payload> with a non-empty mime type, and
returns exactly that pair. -/
theorem c3_decode_ok_shape (s : String) (info : ImageInfo)
    (h : dataUrlToInfo s = .ok info) :
    ∃ m p : String, s = "data:" ++ m ++ ";base64," ++ p ∧ m ≠ "" ∧
      info = { base64 := p, mimeType := m } := by
  unfold dataUrlToInfo at h
  by_cases hpre : dataPrefixChars.isPrefixOf s.data = true
  · rw [if_pos hpre] at h
    cases hfs : findSplit (s.data.drop 5) with
    | none => rw [hfs] at h; simp at h
    | some g =>
      obtain ⟨g1, g2⟩ := g
      rw [hfs] at h
      simp only [Except.ok.injEq] at h
      unfold findSplit at hfs
      obtain ⟨i, hi0, hvalid, hg1, hg2⟩ := findSplitAux_sound _ _ _ _ hfs
      subst hg1
      subst hg2
      have hsep : sepChars.isPrefixOf ((s.data.drop 5).drop i) = true := by
        simp only [validSplitAt, Bool.and_eq_true] at hvalid
        exact hvalid.1.2
      rw [ List.isPrefixOf_iff_prefix] at hpre hsep
      obtain ⟨r, hr⟩ := hpre
      have hrt : s.data.drop 5 = r := by
        rw [← hr]
        exact List.drop_left dataPrefixChars r
      rw [hrt] at hsep h
      obtain ⟨q, hq⟩ := hsep
      have hq8 : (r.drop i).drop 8 = q := by
        rw [← hq]
        exact List.drop_left sepChars q
      have hrdec : r = r.take i ++ (sepChars ++ (r.drop i).drop 8) := by
        conv_lhs => rw [← List.take_append_drop i r]
        congr 1
        rw [hq8]
        exact hq.symm
      have hg1ne : r.take i ≠ [] := by
        intro htake
        rcases List.take_eq_nil_iff.mp htake with h0 | h0
        · omega
        · rw [h0] at hq
          simp [sepChars] at hq
      refine ⟨String.mk (r.take i), String.mk ((r.drop i).drop 8), ?_, ?_, ?_⟩
      · apply string_eq_of_data_eq
        have hdataeq :
            ("data:" ++ String.mk (r.take i) ++ ";base64," ++
              String.mk ((r.drop i).drop 8)).data
            = ((dataPrefixChars ++ r.take i) ++ sepChars) ++ (r.drop i).drop 8 := rfl
        rw [hdataeq, ← hr]
        conv_lhs => rw [hrdec]
        simp [List.append_assoc]
      · intro heq
        exact hg1ne (congrArg String.data heq)
      · exact h.symm
  · rw [if_neg hpre] at h
    simp at h

/-- C4 helper: the MIME gate of fileToInfo forces a non-empty MIME type. -/
theorem mime_ne_nil_of_image (m : String)
    (h : "image/".data.isPrefixOf m.data = true) : m.data ≠ [] := by
  rw [ List.isPrefixOf_iff_prefix] at h
  obtain ⟨t, ht⟩ := h
  rw [← ht]
  simp

/-- C4: encoding a file of bytes b with image MIME type m and decoding the
produced data URL is the identity on the {base64, mimeType} pair: fileToInfo
returns base64(b) and m, and dataUrlToInfo on its data URL returns exactly
the same pair. -/
theorem c4_encode_decode_roundtrip (m : String) (b : List Nat)
    (h1 : "image/".data.isPrefixOf m.data = true)
    (h2 : ∀ c ∈ m.data, c ≠ ',' ∧ isLineTerm c = false) :
    fileToInfo { type := m, bytes := b } =
      .ok { base64 := String.mk (base64Encode b), mimeType := m,
            dataUrl := readAsDataURL { type := m, bytes := b } } ∧
    dataUrlToInfo (readAsDataURL { type := m, bytes := b }) =
      .ok { base64 := String.mk (base64Encode b), mimeType := m } := by
  have hmne : m.data ≠ [] := mime_ne_nil_of_image m h1
  have hp : ∀ c ∈ (String.mk (base64Encode b)).data, payloadChar c :=
    base64Encode_payload b
  constructor
  · unfold fileToInfo
    rw [if_pos h1]
    have hne : (readAsDataURL { type := m, bytes := b }).data ≠ [] := by
      rw [readAsDataURL_data]
      simp [dataPrefixChars]
    rw [if_neg hne]
    have harr : (readAsDataURL { type := m, bytes := b }).data =
        (dataPrefixChars ++ (m.data ++ [';', 'b', 'a', 's', 'e', '6', '4'])) ++
          ',' :: base64Encode b := by
      rw [readAsDataURL_data]
      simp [sepChars, List.append_assoc]
    have hsplit : splitOnComma ((readAsDataURL { type := m, bytes := b }).data) =
        (dataPrefixChars ++ (m.data ++ [';', 'b', 'a', 's', 'e', '6', '4'])) ::
          [base64Encode b] := by
      have hheadnc : ∀ c ∈ dataPrefixChars ++
          (m.data ++ [';', 'b', 'a', 's', 'e', '6', '4']), c ≠ ',' :=
        dataUrl_head_no_comma { type := m, bytes := b } fun c hc => (h2 c hc).1
      rw [harr]
      rw [splitOnComma_append _ _ hheadnc]
      rw [splitOnComma_of_no_comma _ fun c hc => (base64Encode_payload b c hc).2.1]
    rw [hsplit]
    rfl
  · have hform : readAsDataURL { type := m, bytes := b } =
        "data:" ++ m ++ ";base64," ++ String.mk (base64Encode b) := rfl
    rw [hform]
    exact dataUrlToInfo_append m (String.mk (base64Encode b)) hmne
      (fun c hc => (h2 c hc).2) hp

/-- A response carrying no image part whose first candidate reports the
non-normal finish reason SAFETY. -/
def c1FilteredResponse : GenResponse :=
  { candidates := some [{ content := some { parts := some [] }, finishReason := some "SAFETY" }] }

/-- C1: the content-filtered branch of processImageWithGemini builds the
safety-reason error, but the function's own catch block replaces it, so the
caller observes only the generic failure message. Evaluated at a response
with no image part and finishReason SAFETY. -/
theorem c1_safety_reason_swallowed :
    geminiTryBody c1FilteredResponse =
      .error "Image generation failed due to safety reasons: SAFETY" ∧
    processImageWithGemini "QUJD" "image/png" "instruction" (.ok c1FilteredResponse) =
      .error "Failed to process image with the AI model." := ⟨rfl, rfl⟩

/-- C2 counterexample: a record with a non-null latestResultForm whose next
load attempt fails ends with latestResultForm null — the eager reset at the
start of processFile cleared it. -/
theorem c2_failed_load_clears_latest :
    (processFile
      { originalImageInfo := some { base64 := "QUJD", mimeType := "image/png" },
        displayOriginalImageUrl := some "data:image/png;base64,QUJD",
        latestProcessedImageUrl := some "data:image/png;base64,WFla",
        prompt := "", isLoading := false, loadingMessage := "",
        error := none, isFirstRequest := false }
      (.error "Failed to read the image file data.")).latestProcessedImageUrl
      = none := rfl

/-- C2 (amended): no edit operation — first clean or refine, success,
failure or validation rejection — ever sets a non-null latestResultForm
back to null; only a load attempt (which clears it eagerly at its start)
or removing the record can. -/
theorem c2_edit_never_clears_latest (s : AppState) (res : Except String String)
    (u : String) (h : s.latestProcessedImageUrl = some u) :
    ((handleProcessImage s res).1.latestProcessedImageUrl).isSome = true := by
  cases ho : s.originalImageInfo with
  | none => simp [handleProcessImage, ho, h]
  | some info =>
    cases hf : s.isFirstRequest with
    | true =>
      cases res with
      | ok r => simp [handleProcessImage, ho, hf, finishCall]
      | error msg => simp [handleProcessImage, ho, hf, finishCall, h]
    | false =>
      by_cases hp : jsTrim s.prompt = ""
      · simp [handleProcessImage, ho, hf, h, hp]
      · cases hd : dataUrlToInfo u with
        | ok pInfo =>
          cases res with
          | ok r => simp [handleProcessImage, ho, hf, h, hp, hd, finishCall]
          | error msg => simp [handleProcessImage, ho, hf, h, hp, hd, finishCall]
        | error e => simp [handleProcessImage, ho, hf, h, hp, hd]

/-- C2 witness: the amended preservation theorem applied to a record whose
latestResultForm is set and whose refine fails. -/
theorem c2_edit_never_clears_latest_witness :
    (({ originalImageInfo := some { base64 := "QUJD", mimeType := "image/png" },
        displayOriginalImageUrl := some "data:image/png;base64,QUJD",
        latestProcessedImageUrl := some "data:image/png;base64,WFla",
        prompt := "sharpen", isLoading := false, loadingMessage := "",
        error := none, isFirstRequest := false } : AppState).latestProcessedImageUrl
      = some "data:image/png;base64,WFla") ∧
    (((handleProcessImage
      { originalImageInfo := some { base64 := "QUJD", mimeType := "image/png" },
        displayOriginalImageUrl := some "data:image/png;base64,QUJD",
        latestProcessedImageUrl := some "data:image/png;base64,WFla",
        prompt := "sharpen", isLoading := false, loadingMessage := "",
        error := none, isFirstRequest := false }
      (.error "Failed to process image with the AI model.")).1.latestProcessedImageUrl).isSome
      = true) :=
  ⟨rfl, c2_edit_never_clears_latest _ _ "data:image/png;base64,WFla" rfl⟩

/-- C5: the request arguments of handleProcessImage: the first edit sends
the originalImageInfo payload with the fixed clean instruction; a refine
sends the pair decoded from latestProcessedImageUrl together with the
user's prompt. -/
theorem c5_call_arguments (s : AppState) (res : Except String String)
    (info : ImageInfo) (h : s.originalImageInfo = some info) :
    (s.isFirstRequest = true →
      (handleProcessImage s res).2 =
        some { base64Image := info.base64, mimeType := info.mimeType,
               prompt := cleanInstruction }) ∧
    (∀ url pInfo, s.isFirstRequest = false →
      s.latestProcessedImageUrl = some url →
      dataUrlToInfo url = .ok pInfo →
      ¬ jsTrim s.prompt = "" →
      (handleProcessImage s res).2 =
        some { base64Image := pInfo.base64, mimeType := pInfo.mimeType,
               prompt := s.prompt }) := by
  constructor
  · intro hf
    cases res with
    | ok r => simp [handleProcessImage, h, hf, finishCall]
    | error msg => simp [handleProcessImage, h, hf, finishCall]
  · intro url pInfo hf hu hd hp
    cases res with
    | ok r => simp [handleProcessImage, h, hf, hu, hd, hp, finishCall]
    | error msg => simp [handleProcessImage, h, hf, hu, hd, hp, finishCall]

/-- C5 witness: the call-argument theorem applied to a concrete refine. -/
theorem c5_call_arguments_witness :
    (({ originalImageInfo := some { base64 := "QUJD", mimeType := "image/jpeg" },
        displayOriginalImageUrl := some "data:image/jpeg;base64,QUJD",
        latestProcessedImageUrl := some "data:image/png;base64,WFla",
        prompt := "sharpen", isLoading := false, loadingMessage := "",
        error := none, isFirstRequest := false } : AppState).originalImageInfo
      = some { base64 := "QUJD", mimeType := "image/jpeg" }) ∧
    dataUrlToInfo "data:image/png;base64,WFla" =
      .ok { base64 := "WFla", mimeType := "image/png" } ∧
    (handleProcessImage
      { originalImageInfo := some { base64 := "QUJD", mimeType := "image/jpeg" },
        displayOriginalImageUrl := some "data:image/jpeg;base64,QUJD",
        latestProcessedImageUrl := some "data:image/png;base64,WFla",
        prompt := "sharpen", isLoading := false, loadingMessage := "",
        error := none, isFirstRequest := false }
      (.ok "UkVT")).2 =
      some { base64Image := "WFla", mimeType := "image/png", prompt := "sharpen" } :=
  ⟨rfl, rfl,
    (c5_call_arguments _ (.ok "UkVT") { base64 := "QUJD", mimeType := "image/jpeg" }
      rfl).2 "data:image/png;base64,WFla" { base64 := "WFla", mimeType := "image/png" }
      rfl rfl rfl (by decide)⟩

/-- C6: a refine with an instruction that is blank after trimming is
rejected synchronously: the validation message is set, no service call is
made, and every other field of the record is unchanged. -/
theorem c6_blank_instruction_rejected (s : AppState) (res : Except String String)
    (info : ImageInfo) (url : String)
    (h1 : s.originalImageInfo = some info) (h2 : s.isFirstRequest = false)
    (h3 : s.latestProcessedImageUrl = some url) (h4 : jsTrim s.prompt = "")
    (h5 : s.isLoading = false) (h6 : s.loadingMessage = "") :
    handleProcessImage s res =
      ({ s with error := some "Please provide a refinement instruction." }, none) := by
  obtain ⟨o, d, l, pr, il, lm, er, fr⟩ := s
  change o = some info at h1
  change fr = false at h2
  change l = some url at h3
  change jsTrim pr = "" at h4
  change il = false at h5
  change lm = "" at h6
  subst h1 h2 h3 h5 h6
  simp [handleProcessImage, h4]

/-- C6 witness: the blank-instruction theorem applied to a record with a
whitespace-only pendingInstruction. -/
theorem c6_blank_instruction_rejected_witness :
    jsTrim "   " = "" ∧
    handleProcessImage
      { originalImageInfo := some { base64 := "QUJD", mimeType := "image/png" },
        displayOriginalImageUrl := some "data:image/png;base64,QUJD",
        latestProcessedImageUrl := some "data:image/png;base64,WFla",
        prompt := "   ", isLoading := false, loadingMessage := "",
        error := none, isFirstRequest := false }
      (.ok "UkVT") =
      ({ originalImageInfo := some { base64 := "QUJD", mimeType := "image/png" },
         displayOriginalImageUrl := some "data:image/png;base64,QUJD",
         latestProcessedImageUrl := some "data:image/png;base64,WFla",
         prompt := "   ", isLoading := false, loadingMessage := "",
         error := some "Please provide a refinement instruction.",
         isFirstRequest := false }, none) :=
  ⟨rfl, c6_blank_instruction_rejected _ _ { base64 := "QUJD", mimeType := "image/png" }
    "data:image/png;base64,WFla" rfl rfl rfl rfl rfl rfl⟩

/-- C7: when an edit operation fails, the transition sets the error,
clears the in-flight flag, and leaves every other field unchanged — in
particular a failed first edit keeps isFirstRequest true and a failed
refine keeps the previous latestProcessedImageUrl and originalImageInfo. -/
theorem c7_failure_transition (s : AppState) (msg : String) (info : ImageInfo)
    (h1 : s.originalImageInfo = some info)
    (h2 : s.isFirstRequest = false →
      ∃ url pInfo, s.latestProcessedImageUrl = some url ∧
        dataUrlToInfo url = .ok pInfo ∧ ¬ jsTrim s.prompt = "") :
    (handleProcessImage s (.error msg)).1 =
      { s with error := some msg, isLoading := false, loadingMessage := "" } := by
  obtain ⟨o, d, l, pr, il, lm, er, fr⟩ := s
  change o = some info at h1
  subst h1
  cases fr with
  | true => simp [handleProcessImage, finishCall]
  | false =>
    obtain ⟨url, pInfo, hu, hd, hp⟩ := h2 rfl
    change l = some url at hu
    subst hu
    simp [handleProcessImage, hd, hp, finishCall]

/-- C7 witness: the failure-frame theorem applied to a failing first
edit. -/
theorem c7_failure_transition_witness :
    (({ originalImageInfo := some { base64 := "QUJD", mimeType := "image/png" },
        displayOriginalImageUrl := some "data:image/png;base64,QUJD",
        latestProcessedImageUrl := none,
        prompt := "", isLoading := false, loadingMessage := "",
        error := none, isFirstRequest := true } : AppState).originalImageInfo
      = some { base64 := "QUJD", mimeType := "image/png" }) ∧
    (handleProcessImage
      { originalImageInfo := some { base64 := "QUJD", mimeType := "image/png" },
        displayOriginalImageUrl := some "data:image/png;base64,QUJD",
        latestProcessedImageUrl := none,
        prompt := "", isLoading := false, loadingMessage := "",
        error := none, isFirstRequest := true }
      (.error "Failed to process image with the AI model.")).1 =
      { originalImageInfo := some { base64 := "QUJD", mimeType := "image/png" },
        displayOriginalImageUrl := some "data:image/png;base64,QUJD",
        latestProcessedImageUrl := none,
        prompt := "", isLoading := false, loadingMessage := "",
        error := some "Failed to process image with the AI model.",
        isFirstRequest := true } :=
  ⟨rfl, c7_failure_transition _ "Failed to process image with the AI model."
    { base64 := "QUJD", mimeType := "image/png" } rfl (fun h => nomatch h)⟩

/-- C8: a click on the edit button while operationInFlight (isLoading) is
true is ignored: the button is disabled, no service call is made and the
state is untouched, so a second edit is never started or queued. -/
theorem c8_inflight_click_ignored (s : AppState) (res : Except String String)
    (h : s.isLoading = true) :
    processButtonClick s res = (s, none) := by
  unfold processButtonClick
  rw [h]
  simp

/-- C8 witness: the in-flight guard theorem applied to a loading record. -/
theorem c8_inflight_click_ignored_witness :
    (({ originalImageInfo := some { base64 := "QUJD", mimeType := "image/png" },
        displayOriginalImageUrl := some "data:image/png;base64,QUJD",
        latestProcessedImageUrl := none,
        prompt := "", isLoading := true, loadingMessage := "Cleaning background...",
        error := none, isFirstRequest := true } : AppState).isLoading = true) ∧
    processButtonClick
      { originalImageInfo := some { base64 := "QUJD", mimeType := "image/png" },
        displayOriginalImageUrl := some "data:image/png;base64,QUJD",
        latestProcessedImageUrl := none,
        prompt := "", isLoading := true, loadingMessage := "Cleaning background...",
        error := none, isFirstRequest := true }
      (.ok "UkVT") =
      ({ originalImageInfo := some { base64 := "QUJD", mimeType := "image/png" },
         displayOriginalImageUrl := some "data:image/png;base64,QUJD",
         latestProcessedImageUrl := none,
         prompt := "", isLoading := true, loadingMessage := "Cleaning background...",
         error := none, isFirstRequest := true }, none) :=
  ⟨rfl, c8_inflight_click_ignored _ (.ok "UkVT") rfl⟩

/-- C9: every successful edit stores its result as a data URL with MIME
type image/png regardless of the original MIME type and of what the
service returned, and a refine chained off such a result sends MIME type
image/png back to the service. -/
theorem c9_png_normalization (s : AppState) (info : ImageInfo)
    (h1 : s.originalImageInfo = some info) :
    (∀ r, (s.isFirstRequest = false →
        ∃ url pInfo, s.latestProcessedImageUrl = some url ∧
          dataUrlToInfo url = .ok pInfo ∧ ¬ jsTrim s.prompt = "") →
      (handleProcessImage s (.ok r)).1.latestProcessedImageUrl =
        some ("data:image/png;base64," ++ r)) ∧
    (∀ r res, s.isFirstRequest = false →
      s.latestProcessedImageUrl = some ("data:image/png;base64," ++ r) →
      (∀ c ∈ r.data, payloadChar c) →
      ¬ jsTrim s.prompt = "" →
      (handleProcessImage s res).2 =
        some { base64Image := r, mimeType := "image/png", prompt := s.prompt }) := by
  obtain ⟨o, d, l, pr, il, lm, er, fr⟩ := s
  change o = some info at h1
  subst h1
  constructor
  · intro r hpath
    cases fr with
    | true => simp [handleProcessImage, finishCall]
    | false =>
      obtain ⟨url, pInfo, hu, hd, hp⟩ := hpath rfl
      change l = some url at hu
      subst hu
      simp [handleProcessImage, hd, hp, finishCall]
  · intro r res hf hl hrsafe hp
    change fr = false at hf
    subst hf
    change l = some ("data:image/png;base64," ++ r) at hl
    subst hl
    have hurl : dataUrlToInfo ("data:image/png;base64," ++ r) =
        .ok { base64 := r, mimeType := "image/png" } := by
      have heq : ("data:" ++ "image/png" ++ ";base64," : String)
          = "data:image/png;base64," := rfl
      rw [← heq]
      exact dataUrlToInfo_append "image/png" r (by decide) (by decide) hrsafe
    cases res with
    | ok r2 => simp [handleProcessImage, hp, hurl, finishCall]
    | error msg => simp [handleProcessImage, hp, hurl, finishCall]

/-- C9 witness: the png-normalization theorem applied to a concrete
record: the refine chained off a png data URL sends image/png. -/
theorem c9_png_normalization_witness :
    (({ originalImageInfo := some { base64 := "QUJD", mimeType := "image/jpeg" },
        displayOriginalImageUrl := some "data:image/jpeg;base64,QUJD",
        latestProcessedImageUrl := some ("data:image/png;base64," ++ "WFla"),
        prompt := "sharpen", isLoading := false, loadingMessage := "",
        error := none, isFirstRequest := false } : AppState).originalImageInfo
      = some { base64 := "QUJD", mimeType := "image/jpeg" }) ∧
    (handleProcessImage
      { originalImageInfo := some { base64 := "QUJD", mimeType := "image/jpeg" },
        displayOriginalImageUrl := some "data:image/jpeg;base64,QUJD",
        latestProcessedImageUrl := some ("data:image/png;base64," ++ "WFla"),
        prompt := "sharpen", isLoading := false, loadingMessage := "",
        error := none, isFirstRequest := false }
      (.ok "UkVT")).2 =
      some { base64Image := "WFla", mimeType := "image/png", prompt := "sharpen" } :=
  ⟨rfl, (c9_png_normalization _ { base64 := "QUJD", mimeType := "image/jpeg" }
    rfl).2 "WFla" (.ok "UkVT") rfl rfl (by decide) (by decide)⟩

/-- C10: an edit requested with no original loaded is rejected
synchronously: only the error message changes (in particular isLoading is
left as it was, so the in-flight state is never entered) and no service
call is made. -/
theorem c10_no_original_rejected (s : AppState) (res : Except String String)
    (h : s.originalImageInfo = none) :
    handleProcessImage s res =
      ({ s with error := some "Please load an image first." }, none) := by
  obtain ⟨o, d, l, pr, il, lm, er, fr⟩ := s
  change o = none at h
  subst h
  rfl

/-- C10 witness: the no-original theorem applied to an empty record. -/
theorem c10_no_original_rejected_witness :
    (({ originalImageInfo := none, displayOriginalImageUrl := none,
        latestProcessedImageUrl := none, prompt := "", isLoading := false,
        loadingMessage := "", error := none,
        isFirstRequest := true } : AppState).originalImageInfo = none) ∧
    handleProcessImage
      { originalImageInfo := none, displayOriginalImageUrl := none,
        latestProcessedImageUrl := none, prompt := "", isLoading := false,
        loadingMessage := "", error := none, isFirstRequest := true }
      (.ok "UkVT") =
      ({ originalImageInfo := none, displayOriginalImageUrl := none,
         latestProcessedImageUrl := none, prompt := "", isLoading := false,
         loadingMessage := "", error := some "Please load an image first.",
         isFirstRequest := true }, none) :=
  ⟨rfl, c10_no_original_rejected _ (.ok "UkVT") rfl⟩

/-- C3 counterexample: a data URL with an empty payload — malformed
according to the claim — is decoded successfully with base64 equal to the
empty string, because the payload group of the regex is (.*) and accepts
the empty match. -/
theorem c3_empty_payload_accepted :
    dataUrlToInfo "data:image/png;base64," =
      .ok { base64 := "", mimeType := "image/png" } := rfl

/-- C3 witness: the amended decode-shape theorem applied to a concrete
successful decode. -/
theorem c3_decode_ok_shape_witness :
    ∃ m p : String,
      ("data:image/png;base64,QUJD" : String) = "data:" ++ m ++ ";base64," ++ p ∧
      m ≠ "" ∧
      ({ base64 := "QUJD", mimeType := "image/png" } : ImageInfo) =
        { base64 := p, mimeType := m } :=
  c3_decode_ok_shape "data:image/png;base64,QUJD"
    { base64 := "QUJD", mimeType := "image/png" } rfl

/-- C4 witness: the round-trip theorem applied to concrete bytes and MIME
type image/png. -/
theorem c4_encode_decode_roundtrip_witness :
    ("image/".data.isPrefixOf ("image/png" : String).data = true) ∧
    (∀ c ∈ ("image/png" : String).data, c ≠ ',' ∧ isLineTerm c = false) ∧
    (fileToInfo { type := "image/png", bytes := [72, 105, 33] } =
      .ok { base64 := String.mk (base64Encode [72, 105, 33]), mimeType := "image/png",
            dataUrl := readAsDataURL { type := "image/png", bytes := [72, 105, 33] } } ∧
     dataUrlToInfo (readAsDataURL { type := "image/png", bytes := [72, 105, 33] }) =
      .ok { base64 := String.mk (base64Encode [72, 105, 33]),
            mimeType := "image/png" }) :=
  ⟨by decide, by decide,
    c4_encode_decode_roundtrip "image/png" [72, 105, 33] (by decide) (by decide)⟩

end BackgroundPreserver
